import Mathlib

/- Shallow embedding of the cache-insights simulation engine
   (src/src/lib/cacheSimulator.ts and the comparison runner in
   src/src/components/simulator/MemoryVisualizer.tsx).

   Conventions of the embedding:
   * JavaScript numbers are embedded as exact arithmetic: integer-valued
     quantities as Nat or Int, ratio-valued quantities (hit rates, average
     latency, bandwidth figures) as Rat.  All geometries exercised by the
     theorems keep every division exact, where the JavaScript float
     arithmetic agrees with this model.
   * Math.log2 on a power of two is exact; it is embedded as natLog2,
     a floor base-two logarithm that agrees with the source on every
     power of two (and on every configuration used below).
   * Math.random() is a process-global impure source.  It is modelled as
     an explicit ambient stream of rationals (a function from Nat to Rat)
     that is passed to every operation that may consult it; the number of
     values consumed so far is part of the simulator state.
   * JavaScript bit operations first convert their operand with ToUint32
     and mask shift counts to five bits; both conversions are embedded
     explicitly.  The mask (1 << indexBits) - 1 is computed in Nat, which
     agrees with the 32-bit source arithmetic for index widths up to 30,
     covering every realisable geometry. -/

inductive ReplacementPolicy
  | LRU
  | FIFO
  | LFU
  | RANDOM
deriving DecidableEq

inductive WritePolicy
  | writeBack
  | writeThrough
deriving DecidableEq

inductive MemoryType
  | DDR3
  | DDR4
  | DDR5
  | SRAM
  | Custom
deriving DecidableEq

/-- Embeds memoryType.startsWith(&quot;DDR&quot;) from calculatePeakBandwidth. -/
def MemoryType.isDDR : MemoryType → Bool
  | .DDR3 => true
  | .DDR4 => true
  | .DDR5 => true
  | .SRAM => false
  | .Custom => false

structure MemoryConfig where
  sizeMB : ℕ
  latencyCycles : ℕ
  busWidthBits : ℕ
  frequencyMHz : ℕ
  memoryType : MemoryType
  burstLength : ℕ
deriving DecidableEq

structure CacheConfig where
  cacheSize : ℕ
  blockSize : ℕ
  associativity : ℕ
  replacementPolicy : ReplacementPolicy
  writePolicy : WritePolicy
deriving DecidableEq

structure CacheBlock where
  valid : Bool
  dirty : Bool
  tag : ℕ
  lastAccessTime : ℕ
  insertionTime : ℕ
  accessCount : ℕ
deriving DecidableEq

structure CacheStats where
  hits : ℕ
  misses : ℕ
  hitRate : ℚ
  totalAccesses : ℕ
  writebacks : ℕ
deriving DecidableEq

inductive CacheLevelTag
  | L1
  | L2
deriving DecidableEq

structure AccessResult where
  hit : Bool
  setIndex : ℕ
  wayIndex : ℕ
  tag : ℕ
  evicted : Bool
  evictedTag : Option ℕ
  level : Option CacheLevelTag
  memoryAccessed : Bool
deriving DecidableEq

structure TraceEntry where
  isWrite : Bool
  address : ℤ
deriving DecidableEq

/-- A fresh cache block: all flags false and all counters zero. -/
def freshBlock : CacheBlock :=
  { valid := false, dirty := false, tag := 0, lastAccessTime := 0,
    insertionTime := 0, accessCount := 0 }

/-- Simulator state: the configuration, the sets, stats, a monotonically
advancing access counter, the derived address-decomposition widths, and
the number of ambient random values consumed so far. -/
structure CacheSimulator where
  config : CacheConfig
  sets : List (List CacheBlock)
  stats : CacheStats
  accessTime : ℕ
  offsetBits : ℕ
  indexBits : ℕ
  randIdx : ℕ
deriving DecidableEq

/-- Fuel-driven floor base-two logarithm (the fuel argument only bounds
the recursion depth; n halvings always suffice). -/
def natLog2Aux : ℕ → ℕ → ℕ
  | 0, _ => 0
  | fuel + 1, n => if n ≤ 1 then 0 else natLog2Aux fuel (n / 2) + 1

/-- Math.log2 as the source applies it to set counts and block sizes: on
a power of two it is exact, and on other arguments the source feeds the
resulting float through a truncating shift, matching this floor. -/
def natLog2 (n : ℕ) : ℕ := natLog2Aux n n

/-- Embeds the constructor of CacheSimulator: derives the geometry and
builds numSets sets of associativity fresh blocks.  The source performs
no validation whatsoever.  The counts use Nat division, which is exact
whenever the set count is integral; the degenerate geometries where the
source iterates a fractional loop bound (non-integral set count) or
never terminates (zero block size) fall outside that range, and every
theorem below that speaks about all geometries at once is restricted to
the integral range accordingly. -/
def mkCacheSimulator (config : CacheConfig) : CacheSimulator :=
  let numBlocks := config.cacheSize / config.blockSize
  let numSets := numBlocks / config.associativity
  { config := config
    sets := List.replicate numSets (List.replicate config.associativity freshBlock)
    stats := { hits := 0, misses := 0, hitRate := 0, totalAccesses := 0, writebacks := 0 }
    accessTime := 0
    offsetBits := natLog2 config.blockSize
    indexBits := natLog2 numSets
    randIdx := 0 }

/-- JavaScript ToUint32 conversion applied by the bit operators. -/
def jsToUint32 (a : ℤ) : ℕ := (a % (4294967296 : ℤ)).toNat

/-- Embeds extractTag: address >>> (offsetBits + indexBits), with the
JavaScript five-bit mask on the shift count. -/
def CacheSimulator.extractTag (c : CacheSimulator) (a : ℤ) : ℕ :=
  jsToUint32 a >>> ((c.offsetBits + c.indexBits) % 32)

/-- Embeds extractIndex: (address >>> offsetBits) AND ((1 << indexBits) - 1). -/
def CacheSimulator.extractIndex (c : CacheSimulator) (a : ℤ) : ℕ :=
  Nat.land (jsToUint32 a >>> (c.offsetBits % 32)) ((1 <<< (c.indexBits % 32)) - 1)

/-- Index of the first element of the list satisfying p (the left-to-right
search loops of the source). -/
def findIdxFrom (p : CacheBlock → Bool) : List CacheBlock → Option ℕ
  | [] => none
  | b :: rest => if p b then some 0 else (findIdxFrom p rest).map (· + 1)

/-- The hit-search loop: first way holding a valid block with this tag. -/
def findHitWay (set : List CacheBlock) (tag : ℕ) : Option ℕ :=
  findIdxFrom (fun b => b.valid && decide (b.tag = tag)) set

/-- The free-way search loop: first invalid way. -/
def findFreeWay (set : List CacheBlock) : Option ℕ :=
  findIdxFrom (fun b => !b.valid) set

/-- The argmin scan of the source eviction loops: victimIndex starts at 0,
the running minimum starts at Infinity (encoded none), and only a strictly
smaller key replaces the current choice, so the first index attaining the
minimum wins. -/
def argminNat (f : CacheBlock → ℕ) (set : List CacheBlock) : ℕ :=
  (set.foldl
    (fun st b =>
      match st with
      | (i, none, _) => (i + 1, some (f b), i)
      | (i, some m, bi) =>
        if f b < m then (i + 1, some (f b), i) else (i + 1, some m, bi))
    ((0, none, 0) : ℕ × Option ℕ × ℕ)).2.2

/-- The LFU scan: lowest access count, ties broken by lowest last access
time, then by lowest way index (the strict-inequality update of the
source). -/
def argminLex (f g : CacheBlock → ℕ) (set : List CacheBlock) : ℕ :=
  (set.foldl
    (fun st b =>
      match st with
      | (i, none, _) => (i + 1, some (f b, g b), i)
      | (i, some (m1, m2), bi) =>
        if f b < m1 ∨ (f b = m1 ∧ g b < m2) then (i + 1, some (f b, g b), i)
        else (i + 1, some (m1, m2), bi))
    ((0, none, 0) : ℕ × Option (ℕ × ℕ) × ℕ)).2.2

structure VictimChoice where
  wayIndex : ℕ
  evictedTag : Option ℕ
  hadEviction : Bool
  randConsumed : ℕ
deriving DecidableEq

/-- Embeds findVictim.  A free (invalid) way is used first; otherwise the
policy picks the victim.  RANDOM consumes one value r of the ambient
Math.random stream and takes floor(r * ways). -/
def findVictimFn (policy : ReplacementPolicy) (r : ℚ) (set : List CacheBlock) :
    VictimChoice :=
  match findFreeWay set with
  | some i => { wayIndex := i, evictedTag := none, hadEviction := false, randConsumed := 0 }
  | none =>
    match policy with
    | .LRU =>
      let i := argminNat (fun b => b.lastAccessTime) set
      { wayIndex := i, evictedTag := some ((set.getD i freshBlock).tag),
        hadEviction := true, randConsumed := 0 }
    | .LFU =>
      let i := argminLex (fun b => b.accessCount) (fun b => b.lastAccessTime) set
      { wayIndex := i, evictedTag := some ((set.getD i freshBlock).tag),
        hadEviction := true, randConsumed := 0 }
    | .RANDOM =>
      let i := (Int.floor (r * (set.length : ℚ))).toNat
      { wayIndex := i, evictedTag := some ((set.getD i freshBlock).tag),
        hadEviction := true, randConsumed := 1 }
    | .FIFO =>
      let i := argminNat (fun b => b.insertionTime) set
      { wayIndex := i, evictedTag := some ((set.getD i freshBlock).tag),
        hadEviction := true, randConsumed := 0 }

/-- Embeds CacheSimulator.access.  On hit the block updates its recency
and frequency metadata unconditionally and its dirty flag on a write-back
write.  On miss a victim is chosen, a writeback is counted if the victim
was valid and dirty, and the new block is installed.  The ambient random
stream rand is consulted only by RANDOM eviction.  The set lookup is
totalized with getD: for the in-range indices produced by integral
geometries it coincides with the source indexing, while an out-of-range
lookup — on which the source throws a TypeError — is mapped to a miss on
an empty set.  Invariants proved over all geometries therefore read, for
the source, as holding wherever execution is defined; any claim that a
degenerate geometry behaves normally is restricted to the integral
range. -/
def CacheSimulator.access (c : CacheSimulator) (rand : ℕ → ℚ) (address : ℤ)
    (isWrite : Bool) : CacheSimulator × AccessResult :=
  let t := c.accessTime + 1
  let n := c.stats.totalAccesses + 1
  let tag := c.extractTag address
  let setIndex := c.extractIndex address
  let set := c.sets.getD setIndex []
  match findHitWay set tag with
  | some i =>
    let b := set.getD i freshBlock
    let b2 : CacheBlock :=
      { b with lastAccessTime := t, accessCount := b.accessCount + 1,
               dirty := b.dirty || (isWrite && decide (c.config.writePolicy = .writeBack)) }
    let stats2 : CacheStats :=
      { c.stats with hits := c.stats.hits + 1, totalAccesses := n,
                     hitRate := ((c.stats.hits + 1 : ℕ) : ℚ) / (n : ℚ) }
    ({ c with sets := c.sets.set setIndex (set.set i b2), stats := stats2, accessTime := t },
     { hit := true, setIndex := setIndex, wayIndex := i, tag := tag,
       evicted := false, evictedTag := none, level := none, memoryAccessed := false })
  | none =>
    let stats1 : CacheStats :=
      { c.stats with misses := c.stats.misses + 1, totalAccesses := n,
                     hitRate := ((c.stats.hits : ℕ) : ℚ) / (n : ℚ) }
    let v := findVictimFn c.config.replacementPolicy (rand c.randIdx) set
    let victim := set.getD v.wayIndex freshBlock
    let stats2 :=
      if v.hadEviction && victim.dirty then
        { stats1 with writebacks := stats1.writebacks + 1 }
      else stats1
    let b2 : CacheBlock :=
      { valid := true, dirty := isWrite && decide (c.config.writePolicy = .writeBack),
        tag := tag, lastAccessTime := t, insertionTime := t, accessCount := 1 }
    ({ c with sets := c.sets.set setIndex (set.set v.wayIndex b2), stats := stats2,
              accessTime := t, randIdx := c.randIdx + v.randConsumed },
     { hit := false, setIndex := setIndex, wayIndex := v.wayIndex, tag := tag,
       evicted := v.hadEviction, evictedTag := v.evictedTag, level := none,
       memoryAccessed := false })

/-- Replays a trace through a single-level cache, as the optimizer loops
do: sim.access(entry.address, entry.isWrite) for each entry in order. -/
def runTrace (rand : ℕ → ℚ) (c : CacheSimulator) (trace : List TraceEntry) :
    CacheSimulator :=
  trace.foldl (fun c e => (c.access rand e.address e.isWrite).1) c

structure MemoryRegion where
  startAddress : ℤ
  endAddress : ℤ
  accessCount : ℕ
  readCount : ℕ
  writeCount : ℕ
  lastAccessTime : ℕ
deriving DecidableEq

structure MemoryStats where
  totalReads : ℕ
  totalWrites : ℕ
  totalAccesses : ℕ
  bytesTransferred : ℕ
  averageLatency : ℚ
  bandwidthUtilization : ℚ
  peakBandwidthMBps : ℚ
  effectiveBandwidthMBps : ℚ
deriving DecidableEq

structure MemoryAccessResult where
  address : ℤ
  isWrite : Bool
  latencyCycles : ℕ
  bytesTransferred : ℕ
  regionIndex : ℤ
deriving DecidableEq

/-- Memory is split into 16 regions for visualization (the constructor
constant regionCount of MainMemory). -/
def regionCount : ℕ := 16

/-- State of MainMemory.  minAddressSeen starts at Infinity in the
source, encoded here as none. -/
structure MainMemory where
  config : MemoryConfig
  stats : MemoryStats
  regions : List MemoryRegion
  accessHistory : List MemoryAccessResult
  totalCycles : ℕ
  minAddressSeen : Option ℤ
  maxAddressSeen : ℤ
  dynamicRegionSize : ℤ
deriving DecidableEq

/-- Embeds calculatePeakBandwidth: (busWidth * frequency * k) / 8 / 1000
with k = 2 for DDR memory types. -/
def calculatePeakBandwidth (config : MemoryConfig) : ℚ :=
  let multiplier : ℚ := if config.memoryType.isDDR then 2 else 1
  ((config.busWidthBits : ℚ) * (config.frequencyMHz : ℚ) * multiplier) / 8 / 1000

def emptyRegion : MemoryRegion :=
  { startAddress := 0, endAddress := 0, accessCount := 0, readCount := 0,
    writeCount := 0, lastAccessTime := 0 }

/-- Embeds the MainMemory constructor. -/
def mkMainMemory (config : MemoryConfig) : MainMemory :=
  { config := config
    stats := { totalReads := 0, totalWrites := 0, totalAccesses := 0,
               bytesTransferred := 0, averageLatency := 0, bandwidthUtilization := 0,
               peakBandwidthMBps := calculatePeakBandwidth config,
               effectiveBandwidthMBps := 0 }
    regions := List.replicate regionCount emptyRegion
    accessHistory := []
    totalCycles := 0
    minAddressSeen := none
    maxAddressSeen := 0
    dynamicRegionSize := 0 }

/-- JavaScript remainder: the sign follows the dividend (truncated
division), unlike Lean's nonnegative Int.emod. -/
def jsRemInt (a m : ℤ) : ℤ := if 0 ≤ a then a % m else -((-a) % m)

/-- Math.ceil of a / b for nonnegative integer operands, b positive. -/
def intCeilDiv (a b : ℤ) : ℤ := (a + b - 1) / b

/-- Math.ceil of a / b on naturals, b positive. -/
def natCeilDiv (a b : ℕ) : ℕ := (a + b - 1) / b

/-- Embeds MainMemory.access: wraps the address into the memory, widens
the observed address range, recomputes the 16 dynamic region boundaries,
bumps the counters of the region holding the wrapped address, accounts
the burst-aligned transfer, and returns latency = latencyCycles + burst
transfer cycles. -/
def MainMemory.access (mem : MainMemory) (address : ℤ) (isWrite : Bool)
    (blockSize : ℕ) : MainMemory × MemoryAccessResult :=
  let totalCycles := mem.totalCycles + 1
  let memorySize : ℤ := (mem.config.sizeMB : ℤ) * 1024 * 1024
  let wrapped := jsRemInt address memorySize
  let minSeen : ℤ :=
    match mem.minAddressSeen with
    | none => wrapped
    | some m => min m wrapped
  let maxSeen : ℤ := max mem.maxAddressSeen wrapped
  let addressRange := maxSeen - minSeen + 1
  let dynSize : ℤ := max 1 (intCeilDiv addressRange (regionCount : ℤ))
  let boundedRegions : List MemoryRegion :=
    (List.range regionCount).map (fun i =>
      { mem.regions.getD i emptyRegion with
          startAddress := minSeen + (i : ℤ) * dynSize,
          endAddress := minSeen + ((i : ℤ) + 1) * dynSize - 1 })
  let regionIndex : ℤ := min ((wrapped - minSeen) / dynSize) ((regionCount : ℤ) - 1)
  let ri : ℕ := (max 0 regionIndex).toNat
  let region := boundedRegions.getD ri emptyRegion
  let region2 : MemoryRegion :=
    { region with
        accessCount := region.accessCount + 1,
        lastAccessTime := totalCycles,
        readCount := if isWrite then region.readCount else region.readCount + 1,
        writeCount := if isWrite then region.writeCount + 1 else region.writeCount }
  let regions2 := boundedRegions.set ri region2
  let bytesPerBurst := (mem.config.busWidthBits / 8) * mem.config.burstLength
  let transferSize := max blockSize bytesPerBurst
  let burstCycles := natCeilDiv transferSize (mem.config.busWidthBits / 8)
  let totalLatency := mem.config.latencyCycles + burstCycles
  let nAcc := mem.stats.totalAccesses + 1
  let bytes2 := mem.stats.bytesTransferred + transferSize
  let avg2 : ℚ :=
    (mem.stats.averageLatency * ((nAcc : ℚ) - 1) + (totalLatency : ℚ)) / (nAcc : ℚ)
  let effBW : ℚ := ((bytes2 : ℚ) / (totalCycles : ℚ)) * (mem.config.frequencyMHz : ℚ)
  let util : ℚ := (effBW / mem.stats.peakBandwidthMBps) * 100
  let stats2 : MemoryStats :=
    { totalReads := if isWrite then mem.stats.totalReads else mem.stats.totalReads + 1,
      totalWrites := if isWrite then mem.stats.totalWrites + 1 else mem.stats.totalWrites,
      totalAccesses := nAcc, bytesTransferred := bytes2, averageLatency := avg2,
      bandwidthUtilization := util, peakBandwidthMBps := mem.stats.peakBandwidthMBps,
      effectiveBandwidthMBps := effBW }
  let result : MemoryAccessResult :=
    { address := wrapped, isWrite := isWrite, latencyCycles := totalLatency,
      bytesTransferred := transferSize, regionIndex := max 0 regionIndex }
  let hist := mem.accessHistory ++ [result]
  let hist2 := if 1000 < hist.length then hist.drop 1 else hist
  ({ config := mem.config, stats := stats2, regions := regions2, accessHistory := hist2,
     totalCycles := totalCycles, minAddressSeen := some minSeen, maxAddressSeen := maxSeen,
     dynamicRegionSize := dynSize }, result)

structure MultiLevelCacheConfig where
  l1 : CacheConfig
  l2 : CacheConfig
  enabledL1 : Bool
  enabledL2 : Bool
deriving DecidableEq

inductive PathLevel
  | L1
  | L2
  | Memory
deriving DecidableEq

structure HierarchyAccessResult where
  l1Result : Option AccessResult
  l2Result : Option AccessResult
  memoryResult : Option MemoryAccessResult
  totalLatency : ℕ
  dataPath : List PathLevel
deriving DecidableEq

structure MultiLevelCacheSimulator where
  l1 : Option CacheSimulator
  l2 : Option CacheSimulator
  memory : MainMemory
  config : MultiLevelCacheConfig
  memoryConfig : MemoryConfig
  combinedStats : CacheStats
  memoryAccesses : ℕ
deriving DecidableEq

/-- The default memory configuration the hierarchy constructor supplies
when none is given. -/
def defaultMemoryConfig : MemoryConfig :=
  { sizeMB := 256, latencyCycles := 100, busWidthBits := 64, frequencyMHz := 3200,
    memoryType := .DDR4, burstLength := 8 }

/-- Embeds the MultiLevelCacheSimulator constructor (with an explicit
memory configuration argument). -/
def mkMultiLevelCacheSimulator (config : MultiLevelCacheConfig)
    (memoryConfig : MemoryConfig) : MultiLevelCacheSimulator :=
  { l1 := if config.enabledL1 then some (mkCacheSimulator config.l1) else none
    l2 := if config.enabledL2 then some (mkCacheSimulator config.l2) else none
    memory := mkMainMemory memoryConfig
    config := config
    memoryConfig := memoryConfig
    combinedStats := { hits := 0, misses := 0, hitRate := 0, totalAccesses := 0,
                       writebacks := 0 }
    memoryAccesses := 0 }

/-- The memory stage of MultiLevelCacheSimulator.access: both caches
missed (or are disabled), so main memory is accessed with the block size
of L1 when present, else of L2, else 64; the per-level results are then
marked memoryAccessed and a combined miss is recorded. -/
def MultiLevelCacheSimulator.accessMemStage (m : MultiLevelCacheSimulator)
    (address : ℤ) (isWrite : Bool) (l1Result l2Result : Option AccessResult)
    (lat : ℕ) (path : List PathLevel) :
    MultiLevelCacheSimulator × HierarchyAccessResult :=
  let blockSize :=
    match m.l1 with
    | some c => c.config.blockSize
    | none =>
      match m.l2 with
      | some c => c.config.blockSize
      | none => 64
  let p := m.memory.access address isWrite blockSize
  let cs := m.combinedStats
  let cs2 : CacheStats :=
    { cs with misses := cs.misses + 1,
              hitRate := (cs.hits : ℚ) / (cs.totalAccesses : ℚ) }
  ({ m with memory := p.1, memoryAccesses := m.memoryAccesses + 1, combinedStats := cs2 },
   { l1Result := l1Result.map (fun r => { r with memoryAccessed := true }),
     l2Result := l2Result.map (fun r => { r with memoryAccessed := true }),
     memoryResult := some p.2,
     totalLatency := lat + p.2.latencyCycles,
     dataPath := path ++ [PathLevel.Memory] })

/-- The L2 stage of MultiLevelCacheSimulator.access: if L2 is enabled it
is looked up (contributing its hit time of 10 cycles); on an L2 hit the
access completes with a combined hit, otherwise control reaches memory. -/
def MultiLevelCacheSimulator.accessL2Stage (m : MultiLevelCacheSimulator)
    (rand : ℕ → ℚ) (address : ℤ) (isWrite : Bool) (l1Result : Option AccessResult)
    (lat : ℕ) (path : List PathLevel) :
    MultiLevelCacheSimulator × HierarchyAccessResult :=
  match m.l2 with
  | some c2 =>
    let p := c2.access rand address isWrite
    let r2 : AccessResult := { p.2 with level := some CacheLevelTag.L2 }
    let m2 := { m with l2 := some p.1 }
    let lat2 := lat + 10
    let path2 := path ++ [PathLevel.L2]
    if r2.hit then
      let cs := m2.combinedStats
      let cs2 : CacheStats :=
        { cs with hits := cs.hits + 1,
                  hitRate := ((cs.hits + 1 : ℕ) : ℚ) / (cs.totalAccesses : ℚ) }
      ({ m2 with combinedStats := cs2 },
       { l1Result := l1Result, l2Result := some r2, memoryResult := none,
         totalLatency := lat2, dataPath := path2 })
    else
      m2.accessMemStage address isWrite l1Result (some r2) lat2 path2
  | none => m.accessMemStage address isWrite l1Result none lat path

/-- Embeds MultiLevelCacheSimulator.access: the combined access counter
advances, then L1 (hit time 1) is tried when enabled, then L2 (hit time
10), then main memory; every visited level contributes its hit time to
totalLatency even when it misses there. -/
def MultiLevelCacheSimulator.access (m : MultiLevelCacheSimulator) (rand : ℕ → ℚ)
    (address : ℤ) (isWrite : Bool) :
    MultiLevelCacheSimulator × HierarchyAccessResult :=
  let cs0 : CacheStats :=
    { m.combinedStats with totalAccesses := m.combinedStats.totalAccesses + 1 }
  let m0 := { m with combinedStats := cs0 }
  match m0.l1 with
  | some c1 =>
    let p := c1.access rand address isWrite
    let r1 : AccessResult := { p.2 with level := some CacheLevelTag.L1 }
    let m1 := { m0 with l1 := some p.1 }
    if r1.hit then
      let cs := m1.combinedStats
      let cs2 : CacheStats :=
        { cs with hits := cs.hits + 1,
                  hitRate := ((cs.hits + 1 : ℕ) : ℚ) / (cs.totalAccesses : ℚ) }
      ({ m1 with combinedStats := cs2 },
       { l1Result := some r1, l2Result := none, memoryResult := none,
         totalLatency := 1, dataPath := [PathLevel.L1] })
    else
      m1.accessL2Stage rand address isWrite (some r1) 1 [PathLevel.L1]
  | none => m0.accessL2Stage rand address isWrite none 0 []

/-- One iteration of a trace replay that also accumulates the
totalLatency the hierarchy reports for the access. -/
def hierarchyStep (rand : ℕ → ℚ) (st : MultiLevelCacheSimulator × ℕ)
    (e : TraceEntry) : MultiLevelCacheSimulator × ℕ :=
  let p := st.1.access rand e.address e.isWrite
  (p.1, st.2 + p.2.totalLatency)

/-- Replays a trace through the hierarchy, accumulating the reported
totalLatency of every access (the sum the hierarchy reports). -/
def runHierarchy (rand : ℕ → ℚ) (config : MultiLevelCacheConfig)
    (memoryConfig : MemoryConfig) (trace : List TraceEntry) :
    MultiLevelCacheSimulator × ℕ :=
  trace.foldl (hierarchyStep rand) (mkMultiLevelCacheSimulator config memoryConfig, 0)

def optHit (o : Option AccessResult) : Bool :=
  match o with
  | some r => r.hit
  | none => false

/-- One iteration of the runComparison loop of MemoryVisualizer.tsx: the
runner charges 1 cycle for an L1 hit, 1 + 10 for an L2 hit, and
1 + (10 if L2 is enabled) + memoryConfig.latencyCycles otherwise. -/
def comparisonStep (rand : ℕ → ℚ) (config : MultiLevelCacheConfig)
    (memoryConfig : MemoryConfig) (st : MultiLevelCacheSimulator × ℕ)
    (e : TraceEntry) : MultiLevelCacheSimulator × ℕ :=
  let p := st.1.access rand e.address e.isWrite
  let add :=
    if optHit p.2.l1Result then 1
    else if optHit p.2.l2Result then 1 + 10
    else 1 + (if config.enabledL2 then 10 else 0) + memoryConfig.latencyCycles
  (p.1, st.2 + add)

/-- Embeds the totalCycles accumulation of runComparison. -/
def runComparisonCycles (rand : ℕ → ℚ) (config : MultiLevelCacheConfig)
    (memoryConfig : MemoryConfig) (trace : List TraceEntry) : ℕ :=
  (trace.foldl (comparisonStep rand config memoryConfig)
    (mkMultiLevelCacheSimulator config memoryConfig, 0)).2

/-- Embeds MultiLevelCacheSimulator.calculateAMAT with an explicit
optional memory penalty (defaulting to the memory latency). -/
def MultiLevelCacheSimulator.calculateAMAT (m : MultiLevelCacheSimulator)
    (l1HitTime l2HitTime : ℚ) (memoryPenalty : Option ℚ) : ℚ :=
  let actualMemoryPenalty := memoryPenalty.getD ((m.memoryConfig.latencyCycles : ℚ))
  if !m.config.enabledL1 && !m.config.enabledL2 then
    actualMemoryPenalty
  else if !m.config.enabledL2 then
    let l1MissRate : ℚ :=
      match m.l1 with
      | some c => 1 - c.stats.hitRate
      | none => 1
    l1HitTime + l1MissRate * actualMemoryPenalty
  else if !m.config.enabledL1 then
    let l2MissRate : ℚ :=
      match m.l2 with
      | some c => 1 - c.stats.hitRate
      | none => 1
    l2HitTime + l2MissRate * actualMemoryPenalty
  else
    let l1MissRate : ℚ :=
      match m.l1 with
      | some c => 1 - c.stats.hitRate
      | none => 1
    let l2MissRate : ℚ :=
      match m.l2 with
      | some c => 1 - c.stats.hitRate
      | none => 1
    l1HitTime + l1MissRate * (l2HitTime + l2MissRate * actualMemoryPenalty)

/-- Replays a trace through the hierarchy, returning the final state. -/
def runMultiTrace (rand : ℕ → ℚ) (m : MultiLevelCacheSimulator)
    (trace : List TraceEntry) : MultiLevelCacheSimulator :=
  trace.foldl (fun m e => (m.access rand e.address e.isWrite).1) m

/-- The whitespace trim of JavaScript String.trim, on character lists. -/
def trimChars (cs : List Char) : List Char :=
  ((cs.dropWhile Char.isWhitespace).reverse.dropWhile Char.isWhitespace).reverse

/-- Splitting on the newline character, as content.split of the source
produces the lines. -/
def splitNewlinesAux : List Char → List Char → List (List Char)
  | [], acc => [acc.reverse]
  | c :: rest, acc =>
    if c = '\n' then acc.reverse :: splitNewlinesAux rest []
    else splitNewlinesAux rest (c :: acc)

def splitNewlines (cs : List Char) : List (List Char) := splitNewlinesAux cs []

/-- The token split of a line on runs of one or more whitespace
characters: the maximal non-whitespace runs, in order. -/
def splitWsAux : List Char → List Char → List (List Char)
  | [], acc => if acc.isEmpty then [] else [acc.reverse]
  | c :: rest, acc =>
    if c.isWhitespace then
      if acc.isEmpty then splitWsAux rest []
      else acc.reverse :: splitWsAux rest []
    else splitWsAux rest (c :: acc)

def lineTokens (cs : List Char) : List (List Char) := splitWsAux cs []

/-- Does the line start with the comment marker. -/
def startsWithHash : List Char → Bool
  | '#' :: _ => true
  | _ => false

/-- JavaScript toUpperCase on an ASCII token. -/
def toUpperChars (cs : List Char) : List Char := cs.map Char.toUpper

/-- Hexadecimal value of a digit character, case-insensitive. -/
def hexVal? (c : Char) : Option ℕ :=
  if '0' ≤ c ∧ c ≤ '9' then some (c.toNat - '0'.toNat)
  else if 'a' ≤ c ∧ c ≤ 'f' then some (c.toNat - 'a'.toNat + 10)
  else if 'A' ≤ c ∧ c ≤ 'F' then some (c.toNat - 'A'.toNat + 10)
  else none

/-- Value of the longest hexadecimal-digit prefix, with an accumulator. -/
def hexPrefixLoop : List Char → ℕ → ℕ
  | [], acc => acc
  | c :: rest, acc =>
    match hexVal? c with
    | some d => hexPrefixLoop rest (acc * 16 + d)
    | none => acc

/-- The unsigned core of JavaScript parseInt(s, 16): strip an optional 0x
or 0X prefix, then require at least one leading hexadecimal digit and take
the value of the longest digit prefix; otherwise NaN (none). -/
def jsParseIntHexCore (cs : List Char) : Option ℕ :=
  let cs2 :=
    match cs with
    | '0' :: c :: rest => if c = 'x' ∨ c = 'X' then rest else '0' :: c :: rest
    | other => other
  match cs2 with
  | [] => none
  | c :: _ => if (hexVal? c).isSome then some (hexPrefixLoop cs2 0) else none

/-- JavaScript parseInt(s, 16): trim, optional sign, optional 0x prefix,
longest hexadecimal-digit prefix; NaN (none) when no digit follows. -/
def jsParseIntHex (s : List Char) : Option ℤ :=
  match trimChars s with
  | '-' :: rest => (jsParseIntHexCore rest).map (fun n => -(n : ℤ))
  | '+' :: rest => (jsParseIntHexCore rest).map (fun n => (n : ℤ))
  | cs => (jsParseIntHexCore cs).map (fun n => (n : ℤ))

/-- The per-line body of the parseTraceFile loop: skip blank and comment
lines, and push one entry when the address token parses (two-plus
tokens: the second token is the address and the first marks a write iff
it uppercases to W; one token: an implied read); push nothing
otherwise. -/
def parseLineStep (entries : List TraceEntry) (line : List Char) : List TraceEntry :=
  let trimmed := trimChars line
  if trimmed.isEmpty || startsWithHash trimmed then entries
  else
    match lineTokens trimmed with
    | p0 :: p1 :: _ =>
      match jsParseIntHex p1 with
      | some a => entries ++ [{ isWrite := decide (toUpperChars p0 = ['W']), address := a }]
      | none => entries
    | [p0] =>
      match jsParseIntHex p0 with
      | some a => entries ++ [{ isWrite := false, address := a }]
      | none => entries
    | [] => entries

/-- Embeds parseTraceFile: trim the content, split into lines, and run
the per-line loop body over every line, accumulating the entries. -/
def parseTraceFile (content : String) : List TraceEntry :=
  (splitNewlines (trimChars content.toList)).foldl parseLineStep []

/-- Amended per-line behaviour of the parser, stated standalone: a
non-blank, non-comment line yields exactly one entry iff its address
token (the second token when the line has two or more tokens, else its
only token) has a parseable hexadecimal prefix under parseInt semantics;
the write flag is set iff the first token uppercases to W. -/
def relaxedLineSpec (line : List Char) : Option TraceEntry :=
  let trimmed := trimChars line
  if trimmed.isEmpty || startsWithHash trimmed then none
  else
    match lineTokens trimmed with
    | p0 :: p1 :: _ =>
      (jsParseIntHex p1).map
        (fun a => { isWrite := decide (toUpperChars p0 = ['W']), address := a })
    | [p0] =>
      (jsParseIntHex p0).map (fun a => { isWrite := false, address := a })
    | [] => none

/-- Spec-side strict hexadecimal token from the claimed line grammar: an
optional 0x prefix followed by one or more hexadecimal digits and nothing
else. -/
def specHexToken (s : List Char) : Bool :=
  let cs2 :=
    match s with
    | '0' :: c :: rest => if c = 'x' ∨ c = 'X' then rest else '0' :: c :: rest
    | other => other
  !cs2.isEmpty && cs2.all (fun c => (hexVal? c).isSome)

/-- Spec-side rendering of the claimed line grammar: (R|W) whitespace
hex, or hex alone as an implied read; anything else matches no
production. -/
def specLineMatch (line : List Char) : Option TraceEntry :=
  match lineTokens (trimChars line) with
  | [p0, p1] =>
    if (p0 = ['R'] ∨ p0 = ['W']) ∧ specHexToken p1 = true then
      (jsParseIntHex p1).map (fun a => { isWrite := decide (p0 = ['W']), address := a })
    else none
  | [p0] =>
    if specHexToken p0 = true then
      (jsParseIntHex p0).map (fun a => { isWrite := false, address := a })
    else none
  | _ => none

/-- Spec-side validity of a cache geometry, rendered from the claim:
cache size, block size and associativity are powers of two, the block
fits in the cache, and the block size is at least 4. -/
def isPow2 (n : ℕ) : Bool := decide (n ≠ 0) && decide (Nat.land n (n - 1) = 0)

def specGeometryValid (cfg : CacheConfig) : Bool :=
  isPow2 cfg.cacheSize && isPow2 cfg.blockSize && isPow2 cfg.associativity &&
  decide (cfg.blockSize ≤ cfg.cacheSize) && decide (4 ≤ cfg.blockSize)

/-- The burst transfer cycles main memory charges for a transfer of the
L1 block size: ceil(T / busBytes) with T = max(blockSize, busBytes *
burstLength). -/
def l1MemBurstCycles (config : MultiLevelCacheConfig) (mc : MemoryConfig) : ℕ :=
  natCeilDiv (max config.l1.blockSize ((mc.busWidthBits / 8) * mc.burstLength))
    (mc.busWidthBits / 8)

/-- The miss rate of a stats record as the AMAT claim defines it: 1 when
the level saw no accesses, else 1 - hits / totalAccesses. -/
def claimMissRate (s : CacheStats) : ℚ :=
  if s.totalAccesses = 0 then 1 else 1 - (s.hits : ℚ) / (s.totalAccesses : ℚ)

/-- The stats of an optional cache level, zero when the level is absent. -/
def levelStats (c : Option CacheSimulator) : CacheStats :=
  match c with
  | some c => c.stats
  | none => { hits := 0, misses := 0, hitRate := 0, totalAccesses := 0, writebacks := 0 }

/- ===================== Helper lemmas ===================== -/

lemma findIdxFrom_eq_none (p : CacheBlock → Bool) (l : List CacheBlock)
    (h : ∀ b ∈ l, p b = false) : findIdxFrom p l = none := by
  induction l with
  | nil => rfl
  | cons b rest ih =>
    simp only [findIdxFrom, h b (List.mem_cons_self b rest), if_false, Bool.false_eq_true]
    rw [ih (fun x hx => h x (List.mem_cons_of_mem b hx))]
    rfl

lemma findHitWay_all_invalid (set : List CacheBlock) (tag : ℕ)
    (h : ∀ b ∈ set, b.valid = false) : findHitWay set tag = none := by
  apply findIdxFrom_eq_none
  intro b hb
  simp [h b hb]

lemma getD_mem_or {α : Type} (l : List α) (i : ℕ) (d : α) :
    l.getD i d ∈ l ∨ l.getD i d = d := by
  by_cases hi : i < l.length
  · left
    rw [List.getD_eq_getElem l d hi]
    exact List.getElem_mem hi
  · right
    exact List.getD_eq_default l d (Nat.le_of_not_lt hi)

lemma fresh_sets_all_invalid (config : CacheConfig) (i : ℕ) :
    ∀ b ∈ (mkCacheSimulator config).sets.getD i [], b.valid = false := by
  intro b hb
  rcases getD_mem_or (mkCacheSimulator config).sets i [] with hs | hnil
  · have hset := List.eq_of_mem_replicate hs
    rw [hset] at hb
    rw [List.eq_of_mem_replicate hb]
    rfl
  · rw [hnil] at hb
    exact absurd hb (List.not_mem_nil b)

/- ===================== Claim C1 ===================== -/

/-- C1 (counterexample): with cache size 8, block size 2 and
associativity 1 the geometry is invalid per the claim (block size below
4), yet construction does not fail with ConfigInvalid: it yields a cache
that processes an access normally (a miss counted in the stats), i.e. a
usable cache. -/
theorem construction_accepts_invalid_geometry :
    specGeometryValid { cacheSize := 8, blockSize := 2, associativity := 1,
                        replacementPolicy := .FIFO, writePolicy := .writeThrough } = false ∧
    ((mkCacheSimulator { cacheSize := 8, blockSize := 2, associativity := 1,
                         replacementPolicy := .FIFO, writePolicy := .writeThrough
                       }).access (fun _ => 0) 0 false).2.hit = false ∧
    ((mkCacheSimulator { cacheSize := 8, blockSize := 2, associativity := 1,
                         replacementPolicy := .FIFO, writePolicy := .writeThrough
                       }).access (fun _ => 0) 0 false).1.stats.totalAccesses = 1 := by
  refine ⟨by decide, by decide, by decide⟩

/-- C1 (amended): construction performs no geometry validation: no
ConfigInvalid error path exists.  For every CacheConfig whose derived
set count is positive and integral (the block size divides the cache
size, the associativity divides the block count, and at least one set
results) — a range that includes geometries the spec rejects, such as a
block size below 4 — the constructor returns a cache with zeroed stats,
and the first access on it proceeds normally: it is a miss, counted as
one access and one miss.  The remaining degenerate geometries (zero or
fractional set counts, e.g. a block larger than the cache, or a zero
block size) are not rejected with ConfigInvalid either: there the source
instead crashes with a TypeError at access time or never finishes the
constructor loop, so they are outside this statement. -/
theorem construction_never_fails (config : CacheConfig) (rand : ℕ → ℚ) (a : ℤ)
    (w : Bool) (_hbs : 0 < config.blockSize)
    (_hdvd1 : config.blockSize ∣ config.cacheSize)
    (_hassoc : 0 < config.associativity)
    (_hdvd2 : config.associativity ∣ (config.cacheSize / config.blockSize))
    (_hsets : 0 < config.cacheSize / config.blockSize / config.associativity) :
    (mkCacheSimulator config).stats.totalAccesses = 0 ∧
    ((mkCacheSimulator config).access rand a w).2.hit = false ∧
    ((mkCacheSimulator config).access rand a w).1.stats.totalAccesses = 1 ∧
    ((mkCacheSimulator config).access rand a w).1.stats.misses = 1 := by
  have hnone : findHitWay
      ((mkCacheSimulator config).sets.getD ((mkCacheSimulator config).extractIndex a) [])
      ((mkCacheSimulator config).extractTag a) = none :=
    findHitWay_all_invalid _ _ (fresh_sets_all_invalid config _)
  refine ⟨rfl, ?_, ?_, ?_⟩ <;>
    simp only [CacheSimulator.access, hnone] <;>
    (try split) <;> rfl

/-- C1 (witness): the amended construction theorem instantiated at the
geometry (16 B cache, 2 B blocks, 2 ways), invalid per the claim since
the block size is below 4, yet with a positive integral set count. -/
theorem construction_never_fails_witness :
    0 < (⟨16, 2, 2, ReplacementPolicy.LRU, WritePolicy.writeBack⟩ :
      CacheConfig).blockSize ∧
    (⟨16, 2, 2, ReplacementPolicy.LRU, WritePolicy.writeBack⟩ :
        CacheConfig).blockSize ∣
      (⟨16, 2, 2, ReplacementPolicy.LRU, WritePolicy.writeBack⟩ :
        CacheConfig).cacheSize ∧
    0 < (⟨16, 2, 2, ReplacementPolicy.LRU, WritePolicy.writeBack⟩ :
      CacheConfig).associativity ∧
    (⟨16, 2, 2, ReplacementPolicy.LRU, WritePolicy.writeBack⟩ :
        CacheConfig).associativity ∣
      ((⟨16, 2, 2, ReplacementPolicy.LRU, WritePolicy.writeBack⟩ :
          CacheConfig).cacheSize /
        (⟨16, 2, 2, ReplacementPolicy.LRU, WritePolicy.writeBack⟩ :
          CacheConfig).blockSize) ∧
    0 < (⟨16, 2, 2, ReplacementPolicy.LRU, WritePolicy.writeBack⟩ :
        CacheConfig).cacheSize /
      (⟨16, 2, 2, ReplacementPolicy.LRU, WritePolicy.writeBack⟩ :
        CacheConfig).blockSize /
      (⟨16, 2, 2, ReplacementPolicy.LRU, WritePolicy.writeBack⟩ :
        CacheConfig).associativity ∧
    ((mkCacheSimulator
        ⟨16, 2, 2, ReplacementPolicy.LRU, WritePolicy.writeBack⟩).stats.totalAccesses = 0 ∧
      ((mkCacheSimulator
        ⟨16, 2, 2, ReplacementPolicy.LRU, WritePolicy.writeBack⟩).access
        (fun _ => 0) 0 false).2.hit = false ∧
      ((mkCacheSimulator
        ⟨16, 2, 2, ReplacementPolicy.LRU, WritePolicy.writeBack⟩).access
        (fun _ => 0) 0 false).1.stats.totalAccesses = 1 ∧
      ((mkCacheSimulator
        ⟨16, 2, 2, ReplacementPolicy.LRU, WritePolicy.writeBack⟩).access
        (fun _ => 0) 0 false).1.stats.misses = 1) :=
  ⟨by decide, by decide, by decide, by decide, by decide,
    construction_never_fails _ (fun _ => 0) 0 false (by decide) (by decide)
      (by decide) (by decide) (by decide)⟩

/- ===================== Claim C10 ===================== -/

/-- C10: every memory access, from any memory state, any address (even
negative), any write flag and any block size, reports a regionIndex in
[0, 15], so it always indexes one of the 16 regions. -/
theorem region_index_in_range (mem : MainMemory) (address : ℤ) (isWrite : Bool)
    (blockSize : ℕ) :
    0 ≤ ((mem.access address isWrite blockSize).2).regionIndex ∧
    ((mem.access address isWrite blockSize).2).regionIndex ≤ 15 := by
  simp only [MainMemory.access]
  constructor
  · exact le_max_left 0 _
  · apply max_le
    · norm_num
    · apply le_trans (min_le_right _ _)
      norm_num [regionCount]

/- ===================== Claim C9 ===================== -/

lemma accessMemStage_combined_writebacks (m : MultiLevelCacheSimulator) (a : ℤ)
    (w : Bool) (r1 r2 : Option AccessResult) (lat : ℕ) (path : List PathLevel) :
    ((m.accessMemStage a w r1 r2 lat path).1).combinedStats.writebacks =
      m.combinedStats.writebacks := rfl

lemma accessL2Stage_combined_writebacks (m : MultiLevelCacheSimulator)
    (rand : ℕ → ℚ) (a : ℤ) (w : Bool) (r1 : Option AccessResult) (lat : ℕ)
    (path : List PathLevel) :
    ((m.accessL2Stage rand a w r1 lat path).1).combinedStats.writebacks =
      m.combinedStats.writebacks := by
  unfold MultiLevelCacheSimulator.accessL2Stage
  rcases hl2 : m.l2 with _ | c2
  · rw [accessMemStage_combined_writebacks]
  · dsimp only
    split
    · rfl
    · rw [accessMemStage_combined_writebacks]

lemma access_combined_writebacks (m : MultiLevelCacheSimulator) (rand : ℕ → ℚ)
    (a : ℤ) (w : Bool) :
    ((m.access rand a w).1).combinedStats.writebacks =
      m.combinedStats.writebacks := by
  unfold MultiLevelCacheSimulator.access
  rcases hl1 : m.l1 with _ | c1
  · dsimp only
    rw [accessL2Stage_combined_writebacks]
  · dsimp only
    split
    · rfl
    · rw [accessL2Stage_combined_writebacks]

lemma runMultiTrace_combined_writebacks (rand : ℕ → ℚ)
    (m : MultiLevelCacheSimulator) (trace : List TraceEntry) :
    ((runMultiTrace rand m trace).combinedStats).writebacks =
      m.combinedStats.writebacks := by
  induction trace generalizing m with
  | nil => rfl
  | cons e t ih =>
    show ((runMultiTrace rand ((m.access rand e.address e.isWrite).1) t).combinedStats).writebacks = _
    rw [ih, access_combined_writebacks]

/-- C9: the writebacks field of the combined hierarchy stats is always 0:
after replaying any trace from a fresh hierarchy, getCombinedStats
reports writebacks = 0, regardless of the writebacks the per-level L1
and L2 stats accumulated. -/
theorem combined_writebacks_zero (config : MultiLevelCacheConfig)
    (mc : MemoryConfig) (rand : ℕ → ℚ) (trace : List TraceEntry) :
    ((runMultiTrace rand (mkMultiLevelCacheSimulator config mc) trace).combinedStats).writebacks
      = 0 := by
  rw [runMultiTrace_combined_writebacks]
  rfl

/- ===================== Claim C5 ===================== -/

lemma dirty_of_mem_getD {c : CacheSimulator}
    (h : ∀ s ∈ c.sets, ∀ b ∈ s, b.dirty = false) (i : ℕ) :
    ∀ b ∈ c.sets.getD i [], b.dirty = false := by
  intro b hb
  rcases getD_mem_or c.sets i [] with hs | hnil
  · exact h _ hs b hb
  · rw [hnil] at hb
    exact absurd hb (List.not_mem_nil b)

lemma access_preserves_dirty_free (c : CacheSimulator) (rand : ℕ → ℚ) (a : ℤ)
    (w : Bool) (hw : c.config.writePolicy = WritePolicy.writeThrough)
    (h : ∀ s ∈ c.sets, ∀ b ∈ s, b.dirty = false) :
    ∀ s ∈ ((c.access rand a w).1).sets, ∀ b ∈ s, b.dirty = false := by
  have hwb : decide (c.config.writePolicy = WritePolicy.writeBack) = false := by
    rw [hw]; decide
  rcases hfind : findHitWay (c.sets.getD (c.extractIndex a) []) (c.extractTag a)
    with _ | i
  · simp only [CacheSimulator.access, hfind]
    intro s hs b hb
    rcases List.mem_or_eq_of_mem_set hs with hs2 | rfl
    · exact h s hs2 b hb
    · rcases List.mem_or_eq_of_mem_set hb with hb2 | rfl
      · exact dirty_of_mem_getD h _ b hb2
      · simp [hwb]
  · simp only [CacheSimulator.access, hfind]
    intro s hs b hb
    rcases List.mem_or_eq_of_mem_set hs with hs2 | rfl
    · exact h s hs2 b hb
    · rcases List.mem_or_eq_of_mem_set hb with hb2 | rfl
      · exact dirty_of_mem_getD h _ b hb2
      · have hold : ((c.sets.getD (c.extractIndex a) []).getD i freshBlock).dirty = false := by
          rcases getD_mem_or (c.sets.getD (c.extractIndex a) []) i freshBlock with hm | hfb
          · exact dirty_of_mem_getD h _ _ hm
          · rw [hfb]; rfl
        dsimp only
        simp only [hwb, Bool.and_false, Bool.or_false]
        exact hold

lemma access_config_eq (c : CacheSimulator) (rand : ℕ → ℚ) (a : ℤ) (w : Bool) :
    ((c.access rand a w).1).config = c.config := by
  rcases hfind : findHitWay (c.sets.getD (c.extractIndex a) []) (c.extractTag a)
    with _ | i <;> simp only [CacheSimulator.access, hfind]

/-- C5: under a write-through configuration, no block is ever dirty:
after replaying any trace from a fresh cache, every block of every set
has dirty = false. -/
theorem write_through_dirty_free (config : CacheConfig) (rand : ℕ → ℚ)
    (trace : List TraceEntry)
    (hw : config.writePolicy = WritePolicy.writeThrough) :
    ∀ s ∈ (runTrace rand (mkCacheSimulator config) trace).sets,
      ∀ b ∈ s, b.dirty = false := by
  have main : ∀ (t : List TraceEntry) (c : CacheSimulator),
      c.config.writePolicy = WritePolicy.writeThrough →
      (∀ s ∈ c.sets, ∀ b ∈ s, b.dirty = false) →
      ∀ s ∈ (runTrace rand c t).sets, ∀ b ∈ s, b.dirty = false := by
    intro t
    induction t with
    | nil => intro c _ h; exact h
    | cons e rest ih =>
      intro c hc h
      refine ih ((c.access rand e.address e.isWrite).1) ?_ ?_
      · rw [access_config_eq, hc]
      · exact access_preserves_dirty_free c rand e.address e.isWrite hc h
  refine main trace (mkCacheSimulator config) hw ?_
  intro s hs b hb
  rw [List.eq_of_mem_replicate hs] at hb
  rw [List.eq_of_mem_replicate hb]
  rfl

/-- C5 (witness): a concrete write-through cache replaying a concrete
trace with writes ends with every block clean. -/
theorem write_through_dirty_free_witness :
    ({ cacheSize := 32, blockSize := 16, associativity := 1,
       replacementPolicy := ReplacementPolicy.LRU,
       writePolicy := WritePolicy.writeThrough } : CacheConfig).writePolicy
        = WritePolicy.writeThrough ∧
    ∀ s ∈ (runTrace (fun _ => 0)
        (mkCacheSimulator { cacheSize := 32, blockSize := 16, associativity := 1,
                            replacementPolicy := ReplacementPolicy.LRU,
                            writePolicy := WritePolicy.writeThrough })
        [{ isWrite := true, address := 0 }, { isWrite := false, address := 32 },
         { isWrite := true, address := 16 }]).sets, ∀ b ∈ s, b.dirty = false :=
  ⟨rfl, write_through_dirty_free _ _ _ rfl⟩

/- ===================== Claim C4 ===================== -/

/-- C4 (counterexample): under FIFO a hit does not leave the timestamps
untouched.  With the FIFO cache of geometry (32 B, 16 B blocks, 1 way,
write-back), after installing the block for address 0 its lastAccessTime
is 1; the second access to address 0 is a hit, and afterwards the hit
block carries lastAccessTime 2: the hit updated last_access_time. -/
theorem fifo_hit_updates_last_access_time :
    ((((mkCacheSimulator
        ⟨32, 16, 1, ReplacementPolicy.FIFO, WritePolicy.writeBack⟩).access
        (fun _ => 0) 0 false).1.access (fun _ => 0) 0 false).2).hit = true ∧
    ((((mkCacheSimulator
        ⟨32, 16, 1, ReplacementPolicy.FIFO, WritePolicy.writeBack⟩).access
        (fun _ => 0) 0 false).1.sets.getD 0 []).getD 0 freshBlock).lastAccessTime = 1 ∧
    (((((mkCacheSimulator
        ⟨32, 16, 1, ReplacementPolicy.FIFO, WritePolicy.writeBack⟩).access
        (fun _ => 0) 0 false).1.access (fun _ => 0) 0
        false).1.sets.getD 0 []).getD 0 freshBlock).lastAccessTime = 2 := by
  refine ⟨by decide, by decide, by decide⟩

/-- C4 (amended): on a FIFO hit, insertion_time is indeed untouched, but
the hit-path updates are policy-independent: the hit block always gets
last_access_time set to the current access counter and access_count
incremented, and its dirty flag may change on a write-back write; all
other blocks and sets are unchanged. -/
theorem fifo_hit_effect (c : CacheSimulator) (rand : ℕ → ℚ) (a : ℤ) (w : Bool)
    (_hp : c.config.replacementPolicy = ReplacementPolicy.FIFO)
    (hh : ((c.access rand a w).2).hit = true) :
    ((c.access rand a w).1).sets =
      c.sets.set ((c.access rand a w).2).setIndex
        ((c.sets.getD ((c.access rand a w).2).setIndex []).set
          ((c.access rand a w).2).wayIndex
          { (c.sets.getD ((c.access rand a w).2).setIndex []).getD
              ((c.access rand a w).2).wayIndex freshBlock with
            lastAccessTime := c.accessTime + 1,
            accessCount := ((c.sets.getD ((c.access rand a w).2).setIndex []).getD
              ((c.access rand a w).2).wayIndex freshBlock).accessCount + 1,
            dirty := ((c.sets.getD ((c.access rand a w).2).setIndex []).getD
              ((c.access rand a w).2).wayIndex freshBlock).dirty
              || (w && decide (c.config.writePolicy = WritePolicy.writeBack)) }) := by
  rcases hfind : findHitWay (c.sets.getD (c.extractIndex a) []) (c.extractTag a)
    with _ | i
  · exfalso
    simp only [CacheSimulator.access, hfind] at hh
    exact absurd hh (by decide)
  · simp only [CacheSimulator.access, hfind]

/-- C4 (witness): the amended FIFO hit effect instantiated on the
concrete cache state reached after one access, where the second access
to address 0 hits. -/
theorem fifo_hit_effect_witness :
    (((mkCacheSimulator
        ⟨32, 16, 1, ReplacementPolicy.FIFO, WritePolicy.writeBack⟩).access
        (fun _ => 0) 0 false).1).config.replacementPolicy = ReplacementPolicy.FIFO ∧
    ((((mkCacheSimulator
        ⟨32, 16, 1, ReplacementPolicy.FIFO, WritePolicy.writeBack⟩).access
        (fun _ => 0) 0 false).1.access (fun _ => 0) 0 false).2).hit = true ∧
    ((((mkCacheSimulator
        ⟨32, 16, 1, ReplacementPolicy.FIFO, WritePolicy.writeBack⟩).access
        (fun _ => 0) 0 false).1.access (fun _ => 0) 0 false).1).sets =
      (let c := ((mkCacheSimulator
        ⟨32, 16, 1, ReplacementPolicy.FIFO, WritePolicy.writeBack⟩).access
        (fun _ => 0) 0 false).1
      c.sets.set ((c.access (fun _ => 0) 0 false).2).setIndex
        ((c.sets.getD ((c.access (fun _ => 0) 0 false).2).setIndex []).set
          ((c.access (fun _ => 0) 0 false).2).wayIndex
          { (c.sets.getD ((c.access (fun _ => 0) 0 false).2).setIndex []).getD
              ((c.access (fun _ => 0) 0 false).2).wayIndex freshBlock with
            lastAccessTime := c.accessTime + 1,
            accessCount := ((c.sets.getD ((c.access (fun _ => 0) 0 false).2).setIndex []).getD
              ((c.access (fun _ => 0) 0 false).2).wayIndex freshBlock).accessCount + 1,
            dirty := ((c.sets.getD ((c.access (fun _ => 0) 0 false).2).setIndex []).getD
              ((c.access (fun _ => 0) 0 false).2).wayIndex freshBlock).dirty
              || (false && decide (c.config.writePolicy = WritePolicy.writeBack)) })) :=
  ⟨by decide, by decide,
    fifo_hit_effect _ (fun _ => 0) 0 false (by decide) (by decide)⟩

/- ===================== Claim C7 ===================== -/

lemma parseLineStep_eq (entries : List TraceEntry) (line : List Char) :
    parseLineStep entries line = entries ++ (relaxedLineSpec line).toList := by
  unfold parseLineStep relaxedLineSpec
  dsimp only
  split
  · simp
  · rcases h : lineTokens (trimChars line) with _ | ⟨p0, _ | ⟨p1, rest⟩⟩
    · simp
    · rcases hp : jsParseIntHex p0 with _ | a <;> simp [hp]
    · rcases hp : jsParseIntHex p1 with _ | a <;> simp [hp]

lemma foldl_parseLineStep (lines : List (List Char)) (acc : List TraceEntry) :
    lines.foldl parseLineStep acc = acc ++ lines.filterMap relaxedLineSpec := by
  induction lines generalizing acc with
  | nil => simp
  | cons l ls ih =>
    rw [List.foldl_cons, ih, parseLineStep_eq]
    rcases h : relaxedLineSpec l with _ | e <;>
      simp [List.filterMap_cons, h]

/-- C7 (amended): the parser is characterized line by line: it returns
exactly the entries of relaxedLineSpec over the lines of the trimmed
content.  Each non-blank, non-comment line contributes exactly one entry
iff its address token has a parseable hexadecimal prefix under JavaScript
parseInt semantics (so lines outside the claimed strict grammar, such as
an unknown first token or trailing garbage after the digits, still
produce an entry); all other lines are silently skipped, and no error is
ever raised. -/
theorem parser_line_characterization (content : String) :
    parseTraceFile content =
      (splitNewlines (trimChars content.toList)).filterMap relaxedLineSpec := by
  unfold parseTraceFile
  rw [foldl_parseLineStep]
  rfl

/-- C7 (counterexample): the line Q 10 matches neither production of the
claimed grammar, the first token being neither R nor W, yet the parser
produces an entry for it (a read of address 0x10): malformed lines are
not all skipped. -/
theorem parser_accepts_nongrammar_line :
    specLineMatch ("Q 10".toList) = none ∧
    parseTraceFile "Q 10" = [{ isWrite := false, address := 16 }] := by
  refine ⟨by decide, by decide⟩

/- ===================== Claim C8 ===================== -/

lemma findVictimFn_rand_irrelevant (policy : ReplacementPolicy) (r1 r2 : ℚ)
    (set : List CacheBlock) (hp : policy ≠ ReplacementPolicy.RANDOM) :
    findVictimFn policy r1 set = findVictimFn policy r2 set := by
  unfold findVictimFn
  rcases h : findFreeWay set with _ | i
  · cases policy with
    | RANDOM => exact absurd rfl hp
    | LRU => rfl
    | LFU => rfl
    | FIFO => rfl
  · rfl

lemma access_rand_irrelevant (c : CacheSimulator) (r1 r2 : ℕ → ℚ) (a : ℤ)
    (w : Bool) (hp : c.config.replacementPolicy ≠ ReplacementPolicy.RANDOM) :
    c.access r1 a w = c.access r2 a w := by
  unfold CacheSimulator.access
  rcases hfind : findHitWay (c.sets.getD (c.extractIndex a) []) (c.extractTag a)
    with _ | i
  · simp only [hfind]
    rw [findVictimFn_rand_irrelevant c.config.replacementPolicy
      (r1 c.randIdx) (r2 c.randIdx) _ hp]
  · simp only [hfind]

/-- C8 (amended): there is no seed; RANDOM eviction reads the ambient
process-wide Math.random stream.  What does hold: for every non-RANDOM
policy a replay is deterministic, with the final simulator state
independent of the ambient random stream.  (For RANDOM, the companion
counterexample shows the result varies with the ambient stream even
though every declared input is identical, so same-input runs are not
reproducible.) -/
theorem non_random_runs_deterministic (config : CacheConfig) (r1 r2 : ℕ → ℚ)
    (trace : List TraceEntry)
    (hp : config.replacementPolicy ≠ ReplacementPolicy.RANDOM) :
    runTrace r1 (mkCacheSimulator config) trace =
      runTrace r2 (mkCacheSimulator config) trace := by
  have main : ∀ (t : List TraceEntry) (c : CacheSimulator),
      c.config.replacementPolicy ≠ ReplacementPolicy.RANDOM →
      runTrace r1 c t = runTrace r2 c t := by
    intro t
    induction t with
    | nil => intro c _; rfl
    | cons e rest ih =>
      intro c hc
      show runTrace r1 ((c.access r1 e.address e.isWrite).1) rest =
        runTrace r2 ((c.access r2 e.address e.isWrite).1) rest
      rw [access_rand_irrelevant c r1 r2 _ _ hc]
      exact ih _ (by rw [access_config_eq]; exact hc)
  exact main trace _ hp

/-- C8 (witness): a concrete LRU sweep replay is bitwise identical under
two different ambient random streams. -/
theorem non_random_runs_deterministic_witness :
    (⟨32, 16, 2, ReplacementPolicy.LRU, WritePolicy.writeBack⟩ :
        CacheConfig).replacementPolicy ≠ ReplacementPolicy.RANDOM ∧
    runTrace (fun _ => 0)
        (mkCacheSimulator ⟨32, 16, 2, ReplacementPolicy.LRU, WritePolicy.writeBack⟩)
        [⟨false, 0⟩, ⟨false, 16⟩, ⟨false, 32⟩, ⟨false, 0⟩] =
      runTrace (fun _ => (1 : ℚ) / 2)
        (mkCacheSimulator ⟨32, 16, 2, ReplacementPolicy.LRU, WritePolicy.writeBack⟩)
        [⟨false, 0⟩, ⟨false, 16⟩, ⟨false, 32⟩, ⟨false, 0⟩] :=
  ⟨by decide, non_random_runs_deterministic _ _ _ _ (by decide)⟩

/-- C8 (counterexample): under the RANDOM policy, two runs with identical
declared inputs (same configuration, same trace) differ when the ambient
Math.random stream differs: the eviction after filling the one-set
two-way cache removes way 0 under one stream and way 1 under the other,
so the final access misses in the first run and hits in the second.  The
random source is the process-wide Math.random(), which takes no seed, so
the sweep results are not reproducible from the declared inputs. -/
theorem random_policy_depends_on_ambient_stream :
    (runTrace (fun _ => 0)
        (mkCacheSimulator ⟨32, 16, 2, ReplacementPolicy.RANDOM, WritePolicy.writeBack⟩)
        [⟨false, 0⟩, ⟨false, 16⟩, ⟨false, 32⟩, ⟨false, 0⟩]).stats.hits = 0 ∧
    (runTrace (fun _ => (1 : ℚ) / 2)
        (mkCacheSimulator ⟨32, 16, 2, ReplacementPolicy.RANDOM, WritePolicy.writeBack⟩)
        [⟨false, 0⟩, ⟨false, 16⟩, ⟨false, 32⟩, ⟨false, 0⟩]).stats.hits = 1 := by
  refine ⟨by with_unfolding_all decide, by with_unfolding_all decide⟩

/- ===================== Claim C3 ===================== -/

/-- C3: with both levels present, an access costs 1 cycle on an L1 hit;
1 + 10 when L1 misses and L2 hits; and 1 + 10 + (memory latency_cycles +
ceil(T / busBytes)) with busBytes = bus_width_bits / 8 and T =
max(block_size, busBytes * burst_length) when both miss — every visited
level contributes its hit time even when it misses there.  The two bus
hypotheses pin the ceiling reading of the burst formula. -/
theorem hierarchy_latency_formula (m : MultiLevelCacheSimulator) (rand : ℕ → ℚ)
    (a : ℤ) (w : Bool) (c1 c2 : CacheSimulator)
    (hl1 : m.l1 = some c1) (hl2 : m.l2 = some c2)
    (_hdvd : 8 ∣ m.memory.config.busWidthBits)
    (_hbus : 0 < m.memory.config.busWidthBits / 8) :
    ((m.access rand a w).2).totalLatency =
      if optHit ((m.access rand a w).2).l1Result then 1
      else if optHit ((m.access rand a w).2).l2Result then 1 + 10
      else 1 + 10 + (m.memory.config.latencyCycles +
        natCeilDiv (max c1.config.blockSize
            ((m.memory.config.busWidthBits / 8) * m.memory.config.burstLength))
          (m.memory.config.busWidthBits / 8)) := by
  unfold MultiLevelCacheSimulator.access
  dsimp only
  rw [hl1]
  dsimp only
  split
  · next hhit =>
    simp [optHit, hhit]
  · next hmiss =>
    unfold MultiLevelCacheSimulator.accessL2Stage
    dsimp only
    rw [hl2]
    dsimp only
    split
    · next hhit2 =>
      simp only [optHit]
      rw [if_neg (by simpa using hmiss), if_pos (by simpa using hhit2)]
    · next hmiss2 =>
      unfold MultiLevelCacheSimulator.accessMemStage
      dsimp only
      rw [access_config_eq]
      simp only [optHit, Option.map_some]
      rw [if_neg (by simpa using hmiss), if_neg (by simpa using hmiss2)]
      simp [MainMemory.access, Nat.add_assoc]

/-- C3 (witness): the latency formula instantiated on a fresh two-level
hierarchy (L1 32 B, L2 64 B, 16 B blocks, default DDR4 memory) at its
first access. -/
theorem hierarchy_latency_formula_witness :
    (mkMultiLevelCacheSimulator
        ⟨⟨32, 16, 1, ReplacementPolicy.LRU, WritePolicy.writeBack⟩,
         ⟨64, 16, 1, ReplacementPolicy.LRU, WritePolicy.writeBack⟩, true, true⟩
        defaultMemoryConfig).l1
      = some (mkCacheSimulator ⟨32, 16, 1, ReplacementPolicy.LRU, WritePolicy.writeBack⟩) ∧
    (mkMultiLevelCacheSimulator
        ⟨⟨32, 16, 1, ReplacementPolicy.LRU, WritePolicy.writeBack⟩,
         ⟨64, 16, 1, ReplacementPolicy.LRU, WritePolicy.writeBack⟩, true, true⟩
        defaultMemoryConfig).l2
      = some (mkCacheSimulator ⟨64, 16, 1, ReplacementPolicy.LRU, WritePolicy.writeBack⟩) ∧
    8 ∣ (mkMultiLevelCacheSimulator
        ⟨⟨32, 16, 1, ReplacementPolicy.LRU, WritePolicy.writeBack⟩,
         ⟨64, 16, 1, ReplacementPolicy.LRU, WritePolicy.writeBack⟩, true, true⟩
        defaultMemoryConfig).memory.config.busWidthBits ∧
    0 < (mkMultiLevelCacheSimulator
        ⟨⟨32, 16, 1, ReplacementPolicy.LRU, WritePolicy.writeBack⟩,
         ⟨64, 16, 1, ReplacementPolicy.LRU, WritePolicy.writeBack⟩, true, true⟩
        defaultMemoryConfig).memory.config.busWidthBits / 8 ∧
    (((mkMultiLevelCacheSimulator
        ⟨⟨32, 16, 1, ReplacementPolicy.LRU, WritePolicy.writeBack⟩,
         ⟨64, 16, 1, ReplacementPolicy.LRU, WritePolicy.writeBack⟩, true, true⟩
        defaultMemoryConfig).access (fun _ => 0) 0 false).2).totalLatency =
      if optHit (((mkMultiLevelCacheSimulator
        ⟨⟨32, 16, 1, ReplacementPolicy.LRU, WritePolicy.writeBack⟩,
         ⟨64, 16, 1, ReplacementPolicy.LRU, WritePolicy.writeBack⟩, true, true⟩
        defaultMemoryConfig).access (fun _ => 0) 0 false).2).l1Result then 1
      else if optHit (((mkMultiLevelCacheSimulator
        ⟨⟨32, 16, 1, ReplacementPolicy.LRU, WritePolicy.writeBack⟩,
         ⟨64, 16, 1, ReplacementPolicy.LRU, WritePolicy.writeBack⟩, true, true⟩
        defaultMemoryConfig).access (fun _ => 0) 0 false).2).l2Result then 1 + 10
      else 1 + 10 + ((mkMultiLevelCacheSimulator
        ⟨⟨32, 16, 1, ReplacementPolicy.LRU, WritePolicy.writeBack⟩,
         ⟨64, 16, 1, ReplacementPolicy.LRU, WritePolicy.writeBack⟩, true, true⟩
        defaultMemoryConfig).memory.config.latencyCycles +
        natCeilDiv (max (mkCacheSimulator
            ⟨32, 16, 1, ReplacementPolicy.LRU, WritePolicy.writeBack⟩).config.blockSize
            (((mkMultiLevelCacheSimulator
        ⟨⟨32, 16, 1, ReplacementPolicy.LRU, WritePolicy.writeBack⟩,
         ⟨64, 16, 1, ReplacementPolicy.LRU, WritePolicy.writeBack⟩, true, true⟩
        defaultMemoryConfig).memory.config.busWidthBits / 8) *
              (mkMultiLevelCacheSimulator
        ⟨⟨32, 16, 1, ReplacementPolicy.LRU, WritePolicy.writeBack⟩,
         ⟨64, 16, 1, ReplacementPolicy.LRU, WritePolicy.writeBack⟩, true, true⟩
        defaultMemoryConfig).memory.config.burstLength))
          ((mkMultiLevelCacheSimulator
        ⟨⟨32, 16, 1, ReplacementPolicy.LRU, WritePolicy.writeBack⟩,
         ⟨64, 16, 1, ReplacementPolicy.LRU, WritePolicy.writeBack⟩, true, true⟩
        defaultMemoryConfig).memory.config.busWidthBits / 8)) :=
  ⟨rfl, rfl, by decide, by decide,
    hierarchy_latency_formula _ (fun _ => 0) 0 false _ _ rfl rfl (by decide) (by decide)⟩

/- ===================== Claim C2 ===================== -/

lemma memory_access_config_eq (mem : MainMemory) (a : ℤ) (w : Bool) (bs : ℕ) :
    ((mem.access a w bs).1).config = mem.config := rfl

lemma memory_access_latency_eq (mem : MainMemory) (a : ℤ) (w : Bool) (bs : ℕ) :
    ((mem.access a w bs).2).latencyCycles =
      mem.config.latencyCycles +
        natCeilDiv (max bs ((mem.config.busWidthBits / 8) * mem.config.burstLength))
          (mem.config.busWidthBits / 8) := rfl

lemma hierarchy_access_invariants (config : MultiLevelCacheConfig)
    (mc : MemoryConfig) (m : MultiLevelCacheSimulator) (rand : ℕ → ℚ) (a : ℤ)
    (w : Bool) (c1 : CacheSimulator) (hl1 : m.l1 = some c1)
    (hb : c1.config.blockSize = config.l1.blockSize)
    (hl2 : m.l2.isSome = config.enabledL2)
    (hmem : m.memory.config = mc) :
    ((m.access rand a w).1.l1 = some ((c1.access rand a w).1)) ∧
    ((m.access rand a w).1.l2.isSome = config.enabledL2) ∧
    ((m.access rand a w).1.memory.config = mc) ∧
    ((m.access rand a w).2.totalLatency +
        m.memoryAccesses * l1MemBurstCycles config mc =
      (if optHit (m.access rand a w).2.l1Result then 1
       else if optHit (m.access rand a w).2.l2Result then 1 + 10
       else 1 + (if config.enabledL2 then 10 else 0) + mc.latencyCycles)
        + (m.access rand a w).1.memoryAccesses * l1MemBurstCycles config mc) := by
  unfold MultiLevelCacheSimulator.access
  dsimp only
  rw [hl1]
  dsimp only
  split
  · next hhit =>
    refine ⟨rfl, hl2, hmem, ?_⟩
    simp [optHit, hhit]
  · next hmiss =>
    unfold MultiLevelCacheSimulator.accessL2Stage
    dsimp only
    rcases h2 : m.l2 with _ | c2
    · have he2 : config.enabledL2 = false := by rw [← hl2, h2]; rfl
      unfold MultiLevelCacheSimulator.accessMemStage
      dsimp only
      rw [access_config_eq]
      refine ⟨rfl, by rw [he2]; rfl, by rw [memory_access_config_eq]; exact hmem, ?_⟩
      rw [memory_access_latency_eq, hmem, hb]
      simp only [optHit, Option.map, he2]
      rw [if_neg (by simpa using hmiss)]
      simp only [Bool.false_eq_true, if_false]
      unfold l1MemBurstCycles
      ring
    · have he2 : config.enabledL2 = true := by rw [← hl2, h2]; rfl
      dsimp only
      split
      · next hhit2 =>
        refine ⟨rfl, by rw [he2]; rfl, hmem, ?_⟩
        simp only [optHit]
        rw [if_neg (by simpa using hmiss), if_pos (by simpa using hhit2)]
      · next hmiss2 =>
        unfold MultiLevelCacheSimulator.accessMemStage
        dsimp only
        rw [access_config_eq]
        refine ⟨rfl, by rw [he2]; rfl, by rw [memory_access_config_eq]; exact hmem, ?_⟩
        rw [memory_access_latency_eq, hmem, hb]
        simp only [optHit, Option.map, he2]
        rw [if_neg (by simpa using hmiss), if_neg (by simpa using hmiss2)]
        unfold l1MemBurstCycles
        ring

lemma hierarchy_runner_fold (config : MultiLevelCacheConfig) (mc : MemoryConfig)
    (rand : ℕ → ℚ) :
    ∀ (t : List TraceEntry) (m : MultiLevelCacheSimulator) (x y : ℕ)
      (c1 : CacheSimulator), m.l1 = some c1 →
      c1.config.blockSize = config.l1.blockSize →
      m.l2.isSome = config.enabledL2 →
      m.memory.config = mc →
      (t.foldl (hierarchyStep rand) (m, x)).1 =
        (t.foldl (comparisonStep rand config mc) (m, y)).1 ∧
      (t.foldl (hierarchyStep rand) (m, x)).2 + y +
          m.memoryAccesses * l1MemBurstCycles config mc =
        (t.foldl (comparisonStep rand config mc) (m, y)).2 + x +
          (t.foldl (hierarchyStep rand) (m, x)).1.memoryAccesses *
            l1MemBurstCycles config mc := by
  intro t
  induction t with
  | nil =>
    intro m x y c1 _ _ _ _
    exact ⟨rfl, by simp only [List.foldl_nil]; ring⟩
  | cons e t ih =>
    intro m x y c1 h1 hbk h2 hm
    obtain ⟨hal1, hal2, hamem, harith⟩ :=
      hierarchy_access_invariants config mc m rand e.address e.isWrite c1 h1 hbk h2 hm
    rw [List.foldl_cons, List.foldl_cons]
    simp only [hierarchyStep, comparisonStep]
    obtain ⟨he, harith2⟩ := ih ((m.access rand e.address e.isWrite).1)
      (x + (m.access rand e.address e.isWrite).2.totalLatency)
      (y + (if optHit (m.access rand e.address e.isWrite).2.l1Result then 1
        else if optHit (m.access rand e.address e.isWrite).2.l2Result then 1 + 10
        else 1 + (if config.enabledL2 then 10 else 0) + mc.latencyCycles))
      ((c1.access rand e.address e.isWrite).1) hal1
      (by rw [access_config_eq]; exact hbk) hal2 hamem
    refine ⟨he, ?_⟩
    linarith [harith, harith2]

/-- C2 (amended): for every trace and every configuration with L1
enabled, the total cycles the Comparison Runner reports differ from the
accumulated hierarchy latency by exactly the burst transfer cycles of
each memory access: hierarchy total = runner total + memory_accesses *
ceil(T / busBytes), T = max(L1 block size, busBytes * burst_length).
The runner charges only latency_cycles for a memory access, while the
hierarchy adds the burst correction on top. -/
theorem comparison_cycles_offset_by_burst (config : MultiLevelCacheConfig)
    (mc : MemoryConfig) (rand : ℕ → ℚ) (trace : List TraceEntry)
    (hl1 : config.enabledL1 = true) :
    (runHierarchy rand config mc trace).2 =
      runComparisonCycles rand config mc trace +
        (runHierarchy rand config mc trace).1.memoryAccesses *
          l1MemBurstCycles config mc := by
  have hm1 : (mkMultiLevelCacheSimulator config mc).l1 =
      some (mkCacheSimulator config.l1) := by
    simp only [mkMultiLevelCacheSimulator, hl1, if_true]
  have hm2 : (mkMultiLevelCacheSimulator config mc).l2.isSome = config.enabledL2 := by
    rcases he : config.enabledL2 <;> simp [mkMultiLevelCacheSimulator, he]
  obtain ⟨-, harith⟩ := hierarchy_runner_fold config mc rand trace
    (mkMultiLevelCacheSimulator config mc) 0 0
    (mkCacheSimulator config.l1) hm1 rfl hm2 rfl
  have h0 : (mkMultiLevelCacheSimulator config mc).memoryAccesses = 0 := rfl
  rw [h0] at harith
  unfold runHierarchy runComparisonCycles
  linarith [harith]

/-- C2 (witness): on a two-level configuration with the default DDR4
memory and a one-access trace, the hierarchy reports 119 cycles while
the runner reports 111; the difference is one memory access times 8
burst cycles. -/
theorem comparison_cycles_offset_by_burst_witness :
    (⟨⟨32, 16, 1, ReplacementPolicy.LRU, WritePolicy.writeBack⟩,
      ⟨64, 16, 1, ReplacementPolicy.LRU, WritePolicy.writeBack⟩, true, true⟩ :
        MultiLevelCacheConfig).enabledL1 = true ∧
    (runHierarchy (fun _ => 0)
        ⟨⟨32, 16, 1, ReplacementPolicy.LRU, WritePolicy.writeBack⟩,
         ⟨64, 16, 1, ReplacementPolicy.LRU, WritePolicy.writeBack⟩, true, true⟩
        defaultMemoryConfig [⟨false, 0⟩]).2 =
      runComparisonCycles (fun _ => 0)
          ⟨⟨32, 16, 1, ReplacementPolicy.LRU, WritePolicy.writeBack⟩,
           ⟨64, 16, 1, ReplacementPolicy.LRU, WritePolicy.writeBack⟩, true, true⟩
          defaultMemoryConfig [⟨false, 0⟩] +
        (runHierarchy (fun _ => 0)
            ⟨⟨32, 16, 1, ReplacementPolicy.LRU, WritePolicy.writeBack⟩,
             ⟨64, 16, 1, ReplacementPolicy.LRU, WritePolicy.writeBack⟩, true, true⟩
            defaultMemoryConfig [⟨false, 0⟩]).1.memoryAccesses *
          l1MemBurstCycles
            ⟨⟨32, 16, 1, ReplacementPolicy.LRU, WritePolicy.writeBack⟩,
             ⟨64, 16, 1, ReplacementPolicy.LRU, WritePolicy.writeBack⟩, true, true⟩
            defaultMemoryConfig :=
  ⟨rfl, comparison_cycles_offset_by_burst _ _ _ _ rfl⟩

/-- C2 (counterexample): the runner total and the hierarchy latency sum
disagree as soon as memory is reached.  On the same two-level
configuration, default DDR4 memory and the one-access trace, the runner
reports 1 + 10 + 100 = 111 cycles while the hierarchy reports
1 + 10 + (100 + 8) = 119: the claimed equality is false. -/
theorem comparison_cycles_mismatch_hierarchy :
    runComparisonCycles (fun _ => 0)
        ⟨⟨32, 16, 1, ReplacementPolicy.LRU, WritePolicy.writeBack⟩,
         ⟨64, 16, 1, ReplacementPolicy.LRU, WritePolicy.writeBack⟩, true, true⟩
        defaultMemoryConfig [⟨false, 0⟩] = 111 ∧
    (runHierarchy (fun _ => 0)
        ⟨⟨32, 16, 1, ReplacementPolicy.LRU, WritePolicy.writeBack⟩,
         ⟨64, 16, 1, ReplacementPolicy.LRU, WritePolicy.writeBack⟩, true, true⟩
        defaultMemoryConfig [⟨false, 0⟩]).2 = 119 ∧
    runComparisonCycles (fun _ => 0)
        ⟨⟨32, 16, 1, ReplacementPolicy.LRU, WritePolicy.writeBack⟩,
         ⟨64, 16, 1, ReplacementPolicy.LRU, WritePolicy.writeBack⟩, true, true⟩
        defaultMemoryConfig [⟨false, 0⟩] ≠
      (runHierarchy (fun _ => 0)
        ⟨⟨32, 16, 1, ReplacementPolicy.LRU, WritePolicy.writeBack⟩,
         ⟨64, 16, 1, ReplacementPolicy.LRU, WritePolicy.writeBack⟩, true, true⟩
        defaultMemoryConfig [⟨false, 0⟩]).2 := by
  refine ⟨by decide, by decide, by decide⟩

/- ===================== Claim C6 ===================== -/

lemma access_hitrate (c : CacheSimulator) (rand : ℕ → ℚ) (a : ℤ) (w : Bool) :
    ((c.access rand a w).1).stats.hitRate =
      if ((c.access rand a w).1).stats.totalAccesses = 0 then 0
      else (((c.access rand a w).1).stats.hits : ℚ) /
        (((c.access rand a w).1).stats.totalAccesses : ℚ) := by
  rcases hfind : findHitWay (c.sets.getD (c.extractIndex a) []) (c.extractTag a)
    with _ | i
  · simp only [CacheSimulator.access, hfind]
    split <;> simp
  · simp only [CacheSimulator.access, hfind]
    simp

lemma accessL2Stage_state (m : MultiLevelCacheSimulator) (rand : ℕ → ℚ) (a : ℤ)
    (w : Bool) (r1 : Option AccessResult) (lat : ℕ) (path : List PathLevel) :
    ((m.accessL2Stage rand a w r1 lat path).1).config = m.config ∧
    ((m.accessL2Stage rand a w r1 lat path).1).l1 = m.l1 ∧
    (((m.accessL2Stage rand a w r1 lat path).1).l2 = m.l2 ∨
      ∃ c, m.l2 = some c ∧
        ((m.accessL2Stage rand a w r1 lat path).1).l2 = some ((c.access rand a w).1)) := by
  unfold MultiLevelCacheSimulator.accessL2Stage
  rcases h2 : m.l2 with _ | c2
  · exact ⟨rfl, rfl, Or.inl h2⟩
  · dsimp only
    split
    · exact ⟨rfl, rfl, Or.inr ⟨c2, rfl, rfl⟩⟩
    · exact ⟨rfl, rfl, Or.inr ⟨c2, rfl, rfl⟩⟩

lemma multi_access_state (m : MultiLevelCacheSimulator) (rand : ℕ → ℚ) (a : ℤ)
    (w : Bool) :
    ((m.access rand a w).1).config = m.config ∧
    (((m.access rand a w).1).l1 = m.l1 ∨
      ∃ c, m.l1 = some c ∧
        ((m.access rand a w).1).l1 = some ((c.access rand a w).1)) ∧
    (((m.access rand a w).1).l2 = m.l2 ∨
      ∃ c, m.l2 = some c ∧
        ((m.access rand a w).1).l2 = some ((c.access rand a w).1)) := by
  unfold MultiLevelCacheSimulator.access
  dsimp only
  rcases h1 : m.l1 with _ | c1
  · dsimp only
    refine ⟨(accessL2Stage_state _ rand a w none 0 []).1,
      Or.inl (accessL2Stage_state _ rand a w none 0 []).2.1,
      (accessL2Stage_state _ rand a w none 0 []).2.2⟩
  · dsimp only
    split
    · exact ⟨rfl, Or.inr ⟨c1, rfl, rfl⟩, Or.inl rfl⟩
    · refine ⟨(accessL2Stage_state _ rand a w (some _) 1 [PathLevel.L1]).1,
        Or.inr ⟨c1, rfl, (accessL2Stage_state _ rand a w (some _) 1 [PathLevel.L1]).2.1⟩,
        (accessL2Stage_state _ rand a w (some _) 1 [PathLevel.L1]).2.2⟩

lemma runMulti_inv (config : MultiLevelCacheConfig) (mc : MemoryConfig)
    (rand : ℕ → ℚ) (trace : List TraceEntry) :
    ((runMultiTrace rand (mkMultiLevelCacheSimulator config mc) trace).config = config) ∧
    ((runMultiTrace rand (mkMultiLevelCacheSimulator config mc) trace).l1.isSome
        = config.enabledL1) ∧
    ((runMultiTrace rand (mkMultiLevelCacheSimulator config mc) trace).l2.isSome
        = config.enabledL2) ∧
    (∀ c, (runMultiTrace rand (mkMultiLevelCacheSimulator config mc) trace).l1 = some c →
      c.stats.hitRate = if c.stats.totalAccesses = 0 then 0
        else (c.stats.hits : ℚ) / (c.stats.totalAccesses : ℚ)) ∧
    (∀ c, (runMultiTrace rand (mkMultiLevelCacheSimulator config mc) trace).l2 = some c →
      c.stats.hitRate = if c.stats.totalAccesses = 0 then 0
        else (c.stats.hits : ℚ) / (c.stats.totalAccesses : ℚ)) := by
  have main : ∀ (t : List TraceEntry) (m : MultiLevelCacheSimulator),
      m.config = config → m.l1.isSome = config.enabledL1 →
      m.l2.isSome = config.enabledL2 →
      (∀ c, m.l1 = some c → c.stats.hitRate = if c.stats.totalAccesses = 0 then 0
        else (c.stats.hits : ℚ) / (c.stats.totalAccesses : ℚ)) →
      (∀ c, m.l2 = some c → c.stats.hitRate = if c.stats.totalAccesses = 0 then 0
        else (c.stats.hits : ℚ) / (c.stats.totalAccesses : ℚ)) →
      (runMultiTrace rand m t).config = config ∧
      (runMultiTrace rand m t).l1.isSome = config.enabledL1 ∧
      (runMultiTrace rand m t).l2.isSome = config.enabledL2 ∧
      (∀ c, (runMultiTrace rand m t).l1 = some c →
        c.stats.hitRate = if c.stats.totalAccesses = 0 then 0
          else (c.stats.hits : ℚ) / (c.stats.totalAccesses : ℚ)) ∧
      (∀ c, (runMultiTrace rand m t).l2 = some c →
        c.stats.hitRate = if c.stats.totalAccesses = 0 then 0
          else (c.stats.hits : ℚ) / (c.stats.totalAccesses : ℚ)) := by
    intro t
    induction t with
    | nil => intro m hc h1 h2 hr1 hr2; exact ⟨hc, h1, h2, hr1, hr2⟩
    | cons e rest ih =>
      intro m hc h1 h2 hr1 hr2
      obtain ⟨hconf, hl1, hl2⟩ := multi_access_state m rand e.address e.isWrite
      refine ih _ (by rw [hconf]; exact hc) ?_ ?_ ?_ ?_
      · rcases hl1 with hsame | ⟨c, hmc, hupd⟩
        · rw [hsame]; exact h1
        · rw [hupd]; rw [hmc] at h1; exact h1
      · rcases hl2 with hsame | ⟨c, hmc, hupd⟩
        · rw [hsame]; exact h2
        · rw [hupd]; rw [hmc] at h2; exact h2
      · intro c0 hc0
        rcases hl1 with hsame | ⟨c, hmc, hupd⟩
        · rw [hsame] at hc0; exact hr1 c0 hc0
        · rw [hupd] at hc0
          injection hc0 with h
          subst h
          exact access_hitrate c rand e.address e.isWrite
      · intro c0 hc0
        rcases hl2 with hsame | ⟨c, hmc, hupd⟩
        · rw [hsame] at hc0; exact hr2 c0 hc0
        · rw [hupd] at hc0
          injection hc0 with h
          subst h
          exact access_hitrate c rand e.address e.isWrite
  refine main trace (mkMultiLevelCacheSimulator config mc) rfl ?_ ?_ ?_ ?_
  · rcases he : config.enabledL1 <;> simp [mkMultiLevelCacheSimulator, he]
  · rcases he : config.enabledL2 <;> simp [mkMultiLevelCacheSimulator, he]
  · intro c hc
    have hl : (mkMultiLevelCacheSimulator config mc).l1 =
        (if config.enabledL1 then some (mkCacheSimulator config.l1) else none) := rfl
    rw [hl] at hc
    rcases he : config.enabledL1 <;> rw [he] at hc
    · simp at hc
    · simp only [if_true] at hc
      injection hc with h
      rw [← h]
      simp [mkCacheSimulator]
  · intro c hc
    have hl : (mkMultiLevelCacheSimulator config mc).l2 =
        (if config.enabledL2 then some (mkCacheSimulator config.l2) else none) := rfl
    rw [hl] at hc
    rcases he : config.enabledL2 <;> rw [he] at hc
    · simp at hc
    · simp only [if_true] at hc
      injection hc with h
      rw [← h]
      simp [mkCacheSimulator]

lemma one_sub_hitRate (s : CacheStats)
    (h : s.hitRate = if s.totalAccesses = 0 then 0
      else (s.hits : ℚ) / (s.totalAccesses : ℚ)) :
    1 - s.hitRate = claimMissRate s := by
  unfold claimMissRate
  rw [h]
  by_cases h0 : s.totalAccesses = 0 <;> simp [h0]

/-- C6: after replaying any trace, calculateAMAT with an explicit memory
penalty returns: the penalty when neither level is enabled; L1_hit +
miss(L1) * penalty when only L1 is enabled; L2_hit + miss(L2) * penalty
when only L2 is enabled; and L1_hit + miss(L1) * (L2_hit + miss(L2) *
penalty) when both are enabled, where miss of a level with zero accesses
is 1 and otherwise 1 - hits / total_accesses (claimMissRate). -/
theorem calculate_amat_formula (config : MultiLevelCacheConfig) (mc : MemoryConfig)
    (rand : ℕ → ℚ) (trace : List TraceEntry) (l1HitTime l2HitTime p : ℚ) :
    (runMultiTrace rand (mkMultiLevelCacheSimulator config mc) trace).calculateAMAT
        l1HitTime l2HitTime (some p) =
      if config.enabledL1 = false ∧ config.enabledL2 = false then p
      else if config.enabledL2 = false then
        l1HitTime + claimMissRate (levelStats
          (runMultiTrace rand (mkMultiLevelCacheSimulator config mc) trace).l1) * p
      else if config.enabledL1 = false then
        l2HitTime + claimMissRate (levelStats
          (runMultiTrace rand (mkMultiLevelCacheSimulator config mc) trace).l2) * p
      else
        l1HitTime + claimMissRate (levelStats
            (runMultiTrace rand (mkMultiLevelCacheSimulator config mc) trace).l1) *
          (l2HitTime + claimMissRate (levelStats
            (runMultiTrace rand (mkMultiLevelCacheSimulator config mc) trace).l2) * p) := by
  obtain ⟨hcfg, hs1, hs2, hr1, hr2⟩ := runMulti_inv config mc rand trace
  unfold MultiLevelCacheSimulator.calculateAMAT
  rw [hcfg]
  rcases he1 : config.enabledL1 <;> rcases he2 : config.enabledL2
  · simp
  · have hsome : (runMultiTrace rand (mkMultiLevelCacheSimulator config mc) trace).l2.isSome
        = true := by rw [hs2, he2]
    obtain ⟨c, hc⟩ := Option.isSome_iff_exists.mp hsome
    rw [hc]
    simp only [levelStats, Option.getD, Bool.not_true, Bool.not_false, Bool.false_and,
      Bool.and_false, Bool.and_true, Bool.true_and, Bool.false_eq_true, if_false, if_true]
    rw [one_sub_hitRate c.stats (hr2 c hc)]
    simp
  · have hsome : (runMultiTrace rand (mkMultiLevelCacheSimulator config mc) trace).l1.isSome
        = true := by rw [hs1, he1]
    obtain ⟨c, hc⟩ := Option.isSome_iff_exists.mp hsome
    rw [hc]
    simp only [levelStats, Option.getD, Bool.not_true, Bool.not_false, Bool.false_and,
      Bool.and_false, Bool.and_true, Bool.true_and, Bool.false_eq_true, if_false, if_true]
    rw [one_sub_hitRate c.stats (hr1 c hc)]
    simp
  · have hsome1 : (runMultiTrace rand (mkMultiLevelCacheSimulator config mc) trace).l1.isSome
        = true := by rw [hs1, he1]
    have hsome2 : (runMultiTrace rand (mkMultiLevelCacheSimulator config mc) trace).l2.isSome
        = true := by rw [hs2, he2]
    obtain ⟨c1, hc1⟩ := Option.isSome_iff_exists.mp hsome1
    obtain ⟨c2, hc2⟩ := Option.isSome_iff_exists.mp hsome2
    rw [hc1, hc2]
    simp only [levelStats, Option.getD, Bool.not_true, Bool.not_false, Bool.false_and,
      Bool.and_false, Bool.and_true, Bool.true_and, Bool.false_eq_true, if_false, if_true]
    rw [one_sub_hitRate c1.stats (hr1 c1 hc1), one_sub_hitRate c2.stats (hr2 c2 hc2)]
    simp
